import Mathlib

/-!
Verification development for the movie-recommender backend's recommendation
orchestration pipeline (`app/ml/recommendation/hybrid_engine.py`,
`app/ml/recommendation/diversity.py`, `app/ml/recommendation/collaborative.py`,
`app/ml/recommendation/content_based.py`, `app/cache/redis_client.py`).

Modelling conventions:
* Python floats are modelled as exact rationals (ℚ); `numpy.std`, which takes a
  real square root, is modelled over ℝ with `Real.sqrt`.
* Python dict lookups with defaults (`candidate.get(k, d)`) are modelled as
  `Option` fields read with `getD`.
* The learned collaborators (SVD predictor, GNN embedding scorer, similarity of
  extracted feature vectors, LLM explainer) are pipeline parameters: the
  orchestrator code treats them as opaque scoring functions, and every claim
  below quantifies over them or fixes concrete values.
* `async`/`await` sequencing is irrelevant to the verified properties: each
  stage is a pure function of its inputs, so stages are composed directly.
-/

namespace MovieRec

/-- A candidate as produced by a source and consumed by
`HybridRecommendationEngine._calculate_component_scores` and
`_calculate_context_score`: the dict keys the engine reads, with `Option`
standing for a possibly-missing key (`dict.get` with a default). -/
structure Candidate where
  movie_id : Nat
  sentiment_score : Option ℚ
  popularity : Option ℚ
  runtime : Option ℚ
  moods : List String
  cinematography_rating : Option ℚ
  genres : List String
  metadata : List (String × String)
deriving DecidableEq

/-- The request context map (`request.context`): the keys read by
`_calculate_context_score`. -/
structure Context where
  hour : Option Int
  is_weekend : Bool
  mood : Option String
  device : Option String
deriving DecidableEq

/-- The six component scores, in the insertion order of the dict returned by
`_calculate_component_scores`. -/
structure CompScores where
  collaborative : ℚ
  content : ℚ
  gnn : ℚ
  sentiment : ℚ
  popularity : ℚ
  context : ℚ
deriving DecidableEq

/-- State of `CollaborativeFilteringEngine` relevant to `predict_rating`:
whether a model is trained, and (when trained) the SVD estimate
`self.model.predict(user, movie).est`, with `Except` modelling the
`try/except` fallback around the prediction call. -/
structure CollabModel where
  is_trained : Bool
  est : String → Nat → Except Unit ℚ

/-- `CollaborativeFilteringEngine.predict_rating`: returns the neutral raw
rating 3.0 when untrained, otherwise normalizes `est` from the 0.5–5.0 rating
scale into [0,1] and clamps; a prediction exception yields 0.5. -/
def predict_rating (m : CollabModel) (user_id : String) (movie_id : Nat) : ℚ :=
  if m.is_trained = false then 3
  else
    match m.est user_id movie_id with
    | Except.error _ => 1/2
    | Except.ok est => max 0 (min 1 ((est - 1/2) / (9/2)))

/-- `ContentBasedEngine.calculate_similarity`: Jaccard similarity of the user
profile's favorite genres and the candidate's genres, with 0.5 when either
side is empty. Python sets are modelled by deduplicated lists. -/
def calculate_similarity (profile_genres : List String) (cand : Candidate) : ℚ :=
  let user_genres := profile_genres.dedup
  let movie_genres := cand.genres.dedup
  if user_genres = [] ∨ movie_genres = [] then 1/2
  else
    let overlap := (user_genres.filter (fun g => g ∈ movie_genres)).length
    let total := (user_genres ++ movie_genres.filter (fun g => ¬ g ∈ user_genres)).length
    if total = 0 then 1/2 else (overlap : ℚ) / (total : ℚ)

/-- `HybridRecommendationEngine._calculate_context_score`: starts at 0.5 and
adds heuristic boosts (late-night short runtime, weekend long runtime, mood
match, cinematography on mobile), capped at 1. -/
def calculate_context_score (cand : Candidate) (ctx : Context) : ℚ :=
  let score : ℚ := 1/2
  let score :=
    match ctx.hour with
    | none => score
    | some h =>
      let runtime := cand.runtime.getD 120
      let score := if 22 ≤ h ∧ runtime < 100 then score + 2/10 else score
      if ctx.is_weekend ∧ 140 < runtime then score + 1/10 else score
  let score :=
    match ctx.mood with
    | none => score
    | some m => if m ∈ cand.moods then score + 3/10 else score
  let score :=
    if ctx.device = some "mobile" ∧ 4 < cand.cinematography_rating.getD 0
    then score + 1/10 else score
  min score 1

/-- `HybridRecommendationEngine._calculate_component_scores`: assembles the six
component scores.  `gnn` is the optional GNN scorer (`None` when the feature is
disabled, contributing 0); a missing `sentiment_score` key contributes 0; the
popularity raw value is divided by 100 and capped at 1 (defaulting to 0 when
missing). -/
def calculate_component_scores (collab : CollabModel) (profile_genres : List String)
    (gnn : Option (String → Nat → ℚ)) (user_id : String) (cand : Candidate)
    (ctx : Context) : CompScores :=
  { collaborative := predict_rating collab user_id cand.movie_id
    content := calculate_similarity profile_genres cand
    gnn := match gnn with
           | some f => f user_id cand.movie_id
           | none => 0
    sentiment := cand.sentiment_score.getD 0
    popularity := min ((cand.popularity.getD 0) / 100) 1
    context := calculate_context_score cand ctx }

/-- The fixed component weight map `HybridRecommendationEngine.self.weights`. -/
structure Weights where
  collaborative : ℚ
  content : ℚ
  gnn : ℚ
  sentiment : ℚ
  popularity : ℚ
  context : ℚ
deriving DecidableEq

/-- The configured default weights (`settings.REC_*_WEIGHT`). -/
def defaultWeights : Weights :=
  { collaborative := 35/100, content := 25/100, gnn := 20/100,
    sentiment := 10/100, popularity := 5/100, context := 5/100 }

/-- The weighted sum `sum(self.weights[component] * score for component, score
in scores.items())` computed by `_rank_candidates`; the `scores` dict always
carries exactly the six components. -/
def finalScore (w : Weights) (s : CompScores) : ℚ :=
  w.collaborative * s.collaborative + w.content * s.content + w.gnn * s.gnn +
    w.sentiment * s.sentiment + w.popularity * s.popularity + w.context * s.context

/-- A scored candidate as produced by `_rank_candidates`: the dict with keys
`movie_id`, `score`, `components`, `metadata`. -/
structure Scored where
  movie_id : Nat
  score : ℚ
  components : CompScores
  metadata : List (String × String)
deriving DecidableEq

/-- `HybridRecommendationEngine._rank_candidates`: score every candidate with
`scoreFn` (standing for `_calculate_component_scores` with the engine's model
state fixed), take the weighted sum, and sort by score descending.  Python's
`list.sort` is a stable sort; `List.insertionSort` with the reflexive, total
relation `b.score ≤ a.score` is the same stable descending sort. -/
def scoreCandidate (scoreFn : Candidate → CompScores) (w : Weights)
    (c : Candidate) : Scored :=
  { movie_id := c.movie_id, score := finalScore w (scoreFn c),
    components := scoreFn c, metadata := c.metadata }

def rank_candidates (scoreFn : Candidate → CompScores) (w : Weights)
    (cands : List Candidate) : List Scored :=
  (cands.map (scoreCandidate scoreFn w)).insertionSort (fun a b => b.score ≤ a.score)

theorem rank_candidates_mem (scoreFn : Candidate → CompScores) (w : Weights)
    (cands : List Candidate) (s : Scored) (hs : s ∈ rank_candidates scoreFn w cands) :
    ∃ c ∈ cands, s = scoreCandidate scoreFn w c := by
  unfold rank_candidates at hs
  rw [List.mem_insertionSort] at hs
  simp only [List.mem_map] at hs
  obtain ⟨c, hc, rfl⟩ := hs
  exact ⟨c, hc, rfl⟩

/-- Relevance of the candidate at position `idx`, i.e. `candidates[idx]["score"]`
(0 out of range; all indices used by the algorithm are in range). -/
def scoreAt (cands : List Scored) (idx : Nat) : ℚ :=
  ((cands[idx]?).map Scored.score).getD 0

/-- The MMR objective computed in the inner loop of
`DiversityOptimizer.apply_mmr`:
`lambda_param * relevance - (1 - lambda_param) * max_similarity`, where
`max_similarity` starts at 0.0 and is maxed over every already-selected item.
`sim` stands for `_compute_similarity` applied to the feature vectors that
`_extract_features` derives from candidate metadata; selected items are tracked
by their positions, which is what `candidates.index(s)` recovers in the source
whenever the candidate dicts are pairwise distinct (they are in every scenario
considered here). -/
def compute_mmr (sim : Nat → Nat → ℚ) (cands : List Scored) (lam : ℚ)
    (selected : List Nat) (idx : Nat) : ℚ :=
  let max_similarity := selected.foldl (fun m s => max m (sim idx s)) 0
  lam * scoreAt cands idx - (1 - lam) * max_similarity

/-- One iteration of the best-candidate scan inside `apply_mmr`'s `while` loop:
`best_mmr_score` starts at `-inf` (modelled by `none`) and is replaced exactly
when the strict comparison `mmr_score > best_mmr_score` holds. -/
def pick_step (sim : Nat → Nat → ℚ) (cands : List Scored) (lam : ℚ)
    (selected : List Nat) (acc : Option (ℚ × Nat)) (idx : Nat) : Option (ℚ × Nat) :=
  let m := compute_mmr sim cands lam selected idx
  match acc with
  | none => some (m, idx)
  | some best => if best.1 < m then some (m, idx) else some best

/-- The full scan over `remaining` choosing `best_idx` in `apply_mmr`. -/
def pick_best (sim : Nat → Nat → ℚ) (cands : List Scored) (lam : ℚ)
    (selected : List Nat) (remaining : List Nat) : Option Nat :=
  (remaining.foldl (pick_step sim cands lam selected) none).map Prod.snd

/-- The `while len(selected) < top_k and remaining` loop of `apply_mmr`; the
fuel argument is `top_k - len(selected)`, which decreases by one per iteration
because every iteration with a non-empty `remaining` appends exactly one pick. -/
def mmr_loop (sim : Nat → Nat → ℚ) (cands : List Scored) (lam : ℚ) :
    Nat → List Nat → List Nat → List Nat
  | 0, selected, _ => selected
  | fuel + 1, selected, remaining =>
    if remaining = [] then selected
    else
      match pick_best sim cands lam selected remaining with
      | none => selected
      | some b => mmr_loop sim cands lam fuel (selected ++ [b]) (remaining.erase b)

/-- `DiversityOptimizer.apply_mmr`: returns the input unchanged when it has at
most `top_k` candidates; otherwise seeds the selection with position 0
(`first_idx = 0`) and greedily extends it by the MMR-maximizing remaining
candidate until `top_k` items are selected. -/
def apply_mmr (sim : Nat → Nat → ℚ) (candidates : List Scored) (lam : ℚ)
    (top_k : Nat) : List Scored :=
  if candidates = [] then []
  else if candidates.length ≤ top_k then candidates
  else
    let selectedIdx := mmr_loop sim candidates lam (top_k - 1) [0]
      ((List.range candidates.length).drop 1)
    selectedIdx.filterMap (fun i => candidates[i]?)

theorem pick_step_spec (sim : Nat → Nat → ℚ) (cands : List Scored) (lam : ℚ)
    (selected : List Nat) (acc : Option (ℚ × Nat)) (idx : Nat) :
    ∃ q, pick_step sim cands lam selected acc idx = some q ∧
      compute_mmr sim cands lam selected idx ≤ q.1 ∧
      (∀ p, acc = some p → p.1 ≤ q.1) ∧
      (q = (compute_mmr sim cands lam selected idx, idx) ∨ acc = some q) := by
  unfold pick_step
  cases acc with
  | none =>
    exact ⟨_, rfl, le_refl _, fun p hp => by simp at hp, Or.inl rfl⟩
  | some best =>
    by_cases h : best.1 < compute_mmr sim cands lam selected idx
    · refine ⟨(compute_mmr sim cands lam selected idx, idx), by simp [h], le_refl _, ?_, Or.inl rfl⟩
      intro p hp
      cases hp
      exact le_of_lt h
    · refine ⟨best, by simp [h], le_of_not_lt h, ?_, Or.inr rfl⟩
      intro p hp
      cases hp
      exact le_refl _

theorem pick_fold_spec (sim : Nat → Nat → ℚ) (cands : List Scored) (lam : ℚ)
    (selected : List Nat) :
    ∀ (remaining : List Nat) (acc : Option (ℚ × Nat)) (m : ℚ) (b : Nat),
      remaining.foldl (pick_step sim cands lam selected) acc = some (m, b) →
      (acc = some (m, b) ∨ (b ∈ remaining ∧ m = compute_mmr sim cands lam selected b)) ∧
      (∀ i ∈ remaining, compute_mmr sim cands lam selected i ≤ m) ∧
      (∀ p, acc = some p → p.1 ≤ m) := by
  intro remaining
  induction remaining with
  | nil =>
    intro acc m b h
    simp only [List.foldl_nil] at h
    refine ⟨Or.inl h, fun i hi => absurd hi (List.not_mem_nil i), fun p hp => ?_⟩
    rw [h] at hp
    cases hp
    exact le_refl _
  | cons i rest ih =>
    intro acc m b h
    simp only [List.foldl_cons] at h
    obtain ⟨q, hq, hmi, hmono, hform⟩ := pick_step_spec sim cands lam selected acc i
    rw [hq] at h
    obtain ⟨hwho, hall, hup⟩ := ih (some q) m b h
    have hqm : q.1 ≤ m := hup q rfl
    refine ⟨?_, ?_, ?_⟩
    · cases hwho with
      | inl heq =>
        cases heq
        cases hform with
        | inl hf =>
          right
          simp only [Prod.mk.injEq] at hf
          obtain ⟨hm, hb⟩ := hf
          subst hm
          subst hb
          exact ⟨List.mem_cons_self _ _, rfl⟩
        | inr hf => exact Or.inl hf
      | inr hmem =>
        exact Or.inr ⟨List.mem_cons_of_mem i hmem.1, hmem.2⟩
    · intro j hj
      rcases List.mem_cons.mp hj with hj | hj
      · cases hj
        exact le_trans hmi hqm
      · exact hall j hj
    · intro p hp
      exact le_trans (hmono p hp) hqm

theorem pick_best_spec (sim : Nat → Nat → ℚ) (cands : List Scored) (lam : ℚ)
    (selected : List Nat) (remaining : List Nat) (b : Nat)
    (h : pick_best sim cands lam selected remaining = some b) :
    b ∈ remaining ∧
      ∀ i ∈ remaining,
        compute_mmr sim cands lam selected i ≤ compute_mmr sim cands lam selected b := by
  unfold pick_best at h
  cases hf : remaining.foldl (pick_step sim cands lam selected) none with
  | none => rw [hf] at h; simp at h
  | some p =>
    rw [hf] at h
    obtain ⟨m0, b0⟩ := p
    simp only [Option.map_some'] at h
    cases h
    obtain ⟨hwho, hall, -⟩ := pick_fold_spec sim cands lam selected remaining none m0 _ hf
    cases hwho with
    | inl habs => exact Option.noConfusion habs
    | inr hmem =>
      refine ⟨hmem.1, fun i hi => ?_⟩
      rw [← hmem.2]
      exact hall i hi

theorem mmr_loop_prefix (sim : Nat → Nat → ℚ) (cands : List Scored) (lam : ℚ) :
    ∀ (fuel : Nat) (selected remaining : List Nat),
      ∃ tail, mmr_loop sim cands lam fuel selected remaining = selected ++ tail := by
  intro fuel
  induction fuel with
  | zero => exact fun selected remaining => ⟨[], by simp [mmr_loop]⟩
  | succ fuel ih =>
    intro selected remaining
    by_cases hrem : remaining = []
    · exact ⟨[], by simp [mmr_loop, hrem]⟩
    · cases hp : pick_best sim cands lam selected remaining with
      | none => exact ⟨[], by simp [mmr_loop, hrem, hp]⟩
      | some b =>
        obtain ⟨tail, htail⟩ := ih (selected ++ [b]) (remaining.erase b)
        refine ⟨b :: tail, ?_⟩
        simp only [mmr_loop, hrem, if_false, hp]
        rw [htail]
        simp

theorem apply_mmr_head (sim : Nat → Nat → ℚ) (cands : List Scored) (lam : ℚ)
    (top_k : Nat) (h : top_k < cands.length) :
    (apply_mmr sim cands lam top_k).head? = cands.head? := by
  have hne : cands ≠ [] := by
    intro habs
    rw [habs] at h
    simp at h
  unfold apply_mmr
  rw [if_neg hne, if_neg (not_le.mpr h)]
  obtain ⟨tail, htail⟩ := mmr_loop_prefix sim cands lam (top_k - 1) [0]
    ((List.range cands.length).drop 1)
  rw [htail]
  cases cands with
  | nil => exact absurd rfl hne
  | cons a t => simp

/-- `settings.REC_DIVERSITY_LAMBDA` (config default 0.7). -/
def REC_DIVERSITY_LAMBDA : ℚ := 7/10

/-- A constructed `RecommendationRequest`; `diversity_lambda` holds the value
of the attribute after `__init__` has resolved the default. -/
structure RecommendationRequest where
  user_id : String
  top_k : Nat
  context : Context
  filters : List (String × String)
  diversity_lambda : ℚ
deriving DecidableEq

/-- `RecommendationRequest.__init__`: the attribute is set by
`self.diversity_lambda = diversity_lambda or settings.REC_DIVERSITY_LAMBDA`.
Python `or` takes the right operand both when the argument is `None` and when
it is the falsy float `0.0`, so an explicit `0.0` is replaced by the default. -/
def mkRequest (user_id : String) (top_k : Nat) (context : Context)
    (filters : List (String × String)) (diversity_lambda : Option ℚ) :
    RecommendationRequest :=
  { user_id := user_id, top_k := top_k, context := context, filters := filters,
    diversity_lambda :=
      match diversity_lambda with
      | none => REC_DIVERSITY_LAMBDA
      | some l => if l = 0 then REC_DIVERSITY_LAMBDA else l }

/-- A `Recommendation` object (`hybrid_engine.Recommendation`). -/
structure Recommendation where
  movie_id : Nat
  score : ℚ
  components : CompScores
  explanation : String
  confidence : ℚ
  metadata : List (String × String)
deriving DecidableEq

/-- Python `round(x, 4)` on an exact rational: round half to even at four
decimal digits. -/
def pyRound4 (x : ℚ) : ℚ :=
  let y := x * 10000
  let f : ℤ := ⌊y⌋
  let frac := y - (f : ℚ)
  let r : ℤ :=
    if frac < 1/2 then f
    else if 1/2 < frac then f + 1
    else if f % 2 = 0 then f else f + 1
  (r : ℚ) / 10000

/-- The component map after `Recommendation.to_dict` rounds every value to
four decimal places. -/
def roundComponents (s : CompScores) : CompScores :=
  { collaborative := pyRound4 s.collaborative, content := pyRound4 s.content,
    gnn := pyRound4 s.gnn, sentiment := pyRound4 s.sentiment,
    popularity := pyRound4 s.popularity, context := pyRound4 s.context }

/-- `Recommendation.to_dict` composed with the cache-hit reconstruction
`Recommendation(**r)`: the dict carries the same fields with `score`, every
component, and `confidence` rounded to four decimal places, and the cache
stores exactly this payload (JSON-serialized). -/
def Recommendation.to_dict (r : Recommendation) : Recommendation :=
  { movie_id := r.movie_id, score := pyRound4 r.score,
    components := roundComponents r.components, explanation := r.explanation,
    confidence := pyRound4 r.confidence, metadata := r.metadata }

/-- The Redis-backed cache (`RedisClient` over one logical database): `store`
is the deserialized content per key; `get_fails`/`set_fails` model the
underlying client raising on every `get`/`set` call. -/
structure RedisClient where
  store : String → Option (List Recommendation)
  get_fails : Bool
  set_fails : Bool

/-- `CacheManager.get` → `RedisClient.get_json` → `RedisClient.get`: `get`
wraps every exception in `try/except` and returns `None`, so a failing backend
is indistinguishable from a missing key. -/
def RedisClient.get_json (c : RedisClient) (key : String) :
    Option (List Recommendation) :=
  if c.get_fails then none else c.store key

/-- `CacheManager.set` → `RedisClient.set_json` → `RedisClient.set`: `set`
wraps every exception and returns `False` without modifying anything; on
success the key is written and `True` returned. -/
def RedisClient.set_json (c : RedisClient) (key : String)
    (v : List Recommendation) : Bool × RedisClient :=
  if c.set_fails then (false, c)
  else (true, { c with store := fun k => if k = key then some v else c.store k })

/-- `HybridRecommendationEngine._get_cache_key`:
`f"recommendations:{user_id}:{top_k}:{hash(str(filters))}"`.  `filterHash`
stands for Python's builtin `hash` of the filter dict's string form (an
arbitrary deterministic function of the filters within one process). -/
def get_cache_key (filterHash : List (String × String) → Int)
    (r : RecommendationRequest) : String :=
  "recommendations:" ++ r.user_id ++ ":" ++ toString r.top_k ++ ":" ++
    toString (filterHash r.filters)

/-- The deduplication step of `_generate_candidates`: append a candidate only
if its `movie_id` has not been seen (membership in the accumulator is exactly
membership of the id in `seen_movie_ids`). -/
def merge_candidate (acc : List Candidate) (c : Candidate) : List Candidate :=
  if acc.any (fun a => a.movie_id = c.movie_id) then acc else acc ++ [c]

/-- `HybridRecommendationEngine._generate_candidates` after the
`asyncio.gather(..., return_exceptions=True)` fan-out: `results` holds, in the
fixed task order, either a source's candidate list or the exception it raised;
exceptions are skipped (logged only) and the rest merged first-occurrence-wins
by `movie_id`. -/
def source_step (acc : List Candidate) (r : Except Unit (List Candidate)) :
    List Candidate :=
  match r with
  | Except.error _ => acc
  | Except.ok cs => cs.foldl merge_candidate acc

def generate_candidates (results : List (Except Unit (List Candidate))) :
    List Candidate :=
  results.foldl source_step []

/-- `HybridRecommendationEngine._get_user_profile` is a placeholder returning
`favorite_genres: []`; only the genre list is consumed (by
`calculate_similarity`). -/
def get_user_profile_genres : List String := []

/-- The caller-visible failure: `ResourceNotFoundError("candidates", ...)`
raised when the fan-out produced zero unique candidates (re-wrapped as
`MLModelError` by the blanket handler before reaching the caller). -/
inductive RecError
  | noCandidates
deriving DecidableEq

/-- The engine's model state and external collaborators, fixed for one call:
the gathered source results, the SVD model, the optional GNN scorer, the
configured weights, the MMR similarity oracle, the explainer (never raises:
`generate_explanation` catches everything and falls back to a template), the
confidence value produced for a component map (`_calculate_confidence`; its
float output is treated opaquely by the pipeline), and the process's string
hash. -/
structure HybridEngine where
  sources : List (Except Unit (List Candidate))
  collab : CollabModel
  gnn : Option (String → Nat → ℚ)
  weights : Weights
  sim : Nat → Nat → ℚ
  explain : Nat → CompScores → String
  confidence : CompScores → ℚ
  filterHash : List (String × String) → Int

/-- Outcome of one `get_recommendations` call: the returned value or raised
error, whether stage 4 (explanation generation) ran, and the cache state after
the call. -/
structure PipelineResult where
  result : Except RecError (List Recommendation)
  explained : Bool
  cache : RedisClient

/-- Stages 1–4 of `get_recommendations` (the cache-miss path): candidate
generation, re-ranking, MMR diversification, and explanation/confidence
assembly. -/
def fresh_recommendations (eng : HybridEngine) (req : RecommendationRequest) :
    Except RecError (List Recommendation) :=
  let candidates := generate_candidates eng.sources
  if candidates = [] then Except.error RecError.noCandidates
  else
    let scored := rank_candidates
      (fun c => calculate_component_scores eng.collab get_user_profile_genres
        eng.gnn req.user_id c req.context)
      eng.weights candidates
    let diverse := apply_mmr eng.sim scored req.diversity_lambda req.top_k
    Except.ok (diverse.map (fun s =>
      { movie_id := s.movie_id, score := s.score, components := s.components,
        explanation := eng.explain s.movie_id s.components,
        confidence := eng.confidence s.components, metadata := s.metadata }))

/-- The tail of the cache-miss path: compute fresh, then write the serialized
(`to_dict`) list to the cache, ignoring the write's boolean outcome. -/
def compute_and_store (eng : HybridEngine) (req : RecommendationRequest)
    (cache : RedisClient) (key : String) : PipelineResult :=
  match fresh_recommendations eng req with
  | Except.error e => ⟨Except.error e, false, cache⟩
  | Except.ok recs =>
    let stored := recs.map Recommendation.to_dict
    let out := RedisClient.set_json cache key stored
    ⟨Except.ok recs, true, out.2⟩

/-- `HybridRecommendationEngine.get_recommendations`: cache probe first
(`if cached:` — a hit whose payload is empty/falsy is treated as a miss), the
cached payload returned verbatim on a hit, otherwise the four-stage pipeline
followed by the cache write. -/
def get_recommendations (eng : HybridEngine) (req : RecommendationRequest)
    (cache : RedisClient) : PipelineResult :=
  match RedisClient.get_json cache (get_cache_key eng.filterHash req) with
  | some cached =>
    if cached = [] then compute_and_store eng req cache (get_cache_key eng.filterHash req)
    else ⟨Except.ok cached, false, cache⟩
  | none => compute_and_store eng req cache (get_cache_key eng.filterHash req)

/-- `list(components.values())` in `_calculate_confidence`: the six component
scores in dict insertion order. -/
def componentValues (s : CompScores) : List ℚ :=
  [s.collaborative, s.content, s.gnn, s.sentiment, s.popularity, s.context]

/-- `np.mean` of a rational list. -/
def listMean (l : List ℚ) : ℚ := l.sum / l.length

/-- The square of `np.std` (population variance, `ddof = 0`). -/
def listVar (l : List ℚ) : ℚ :=
  ((l.map (fun x => (x - listMean l) ^ 2)).sum) / l.length

/-- `HybridRecommendationEngine._calculate_confidence` with exact real
arithmetic: `1 / (1 + cv)` where `cv = np.std(scores) / np.mean(scores)`, with
the explicit 0.5 fallbacks for an empty list and a zero mean.  The square root
forces the codomain ℝ; every use in the theorems below reduces comparisons to
rational variance/mean data. -/
noncomputable def calculate_confidence (s : CompScores) : ℝ :=
  let scores := componentValues s
  if scores = [] then 1/2
  else if listMean scores = 0 then 1/2
  else 1 / (1 + Real.sqrt ((listVar scores : ℚ) : ℝ) / ((listMean scores : ℚ) : ℝ))

/-- Squared coefficient of variation of a rational list: rational data that
orders `calculate_confidence` values (for positive means). -/
def cvSq (l : List ℚ) : ℚ := listVar l / (listMean l) ^ 2

/-- The non-zero component scores, as named by the specification's confidence
sentence (the code itself never filters). -/
def nonzeroComponents (s : CompScores) : List ℚ :=
  (componentValues s).filter (fun x => ¬ x = 0)

theorem merge_candidate_length (acc : List Candidate) (c : Candidate) :
    acc.length ≤ (merge_candidate acc c).length := by
  unfold merge_candidate
  by_cases h : acc.any (fun a => a.movie_id = c.movie_id)
  · simp [h]
  · simp [h]

theorem merge_candidate_length_pos (acc : List Candidate) (c : Candidate) :
    1 ≤ (merge_candidate acc c).length := by
  unfold merge_candidate
  by_cases h : acc.any (fun a => a.movie_id = c.movie_id)
  · rw [if_pos h]
    rw [List.any_eq_true] at h
    obtain ⟨a, ha, -⟩ := h
    exact List.length_pos.mpr (List.ne_nil_of_mem ha)
  · rw [if_neg h]
    simp

theorem merge_fold_length (cs : List Candidate) :
    ∀ acc : List Candidate, acc.length ≤ (cs.foldl merge_candidate acc).length := by
  induction cs with
  | nil => intro acc; simp
  | cons c rest ih =>
    intro acc
    simp only [List.foldl_cons]
    exact le_trans (merge_candidate_length acc c) (ih (merge_candidate acc c))

theorem source_fold_length (results : List (Except Unit (List Candidate))) :
    ∀ acc : List Candidate, acc.length ≤ (results.foldl source_step acc).length := by
  induction results with
  | nil => intro acc; simp
  | cons r rest ih =>
    intro acc
    simp only [List.foldl_cons]
    refine le_trans ?_ (ih (source_step acc r))
    unfold source_step
    cases r with
    | error e => exact le_refl _
    | ok cs => exact merge_fold_length cs acc

theorem generate_candidates_error_as_empty
    (pre post : List (Except Unit (List Candidate))) (e : Unit) :
    generate_candidates (pre ++ Except.error e :: post) =
      generate_candidates (pre ++ Except.ok [] :: post) := by
  unfold generate_candidates
  rw [List.foldl_append, List.foldl_append]
  rfl

theorem generate_candidates_ne_nil (results : List (Except Unit (List Candidate)))
    (cs : List Candidate) (hmem : Except.ok cs ∈ results) (hne : cs ≠ []) :
    generate_candidates results ≠ [] := by
  obtain ⟨pre, post, rfl⟩ := List.append_of_mem hmem
  cases cs with
  | nil => exact absurd rfl hne
  | cons c rest =>
    unfold generate_candidates
    rw [List.foldl_append]
    intro habs
    have h1 : 1 ≤ (source_step (pre.foldl source_step []) (Except.ok (c :: rest))).length := by
      unfold source_step
      simp only [List.foldl_cons]
      exact le_trans (merge_candidate_length_pos (pre.foldl source_step []) c)
        (merge_fold_length rest _)
    have h2 := source_fold_length post (source_step (pre.foldl source_step []) (Except.ok (c :: rest)))
    rw [List.foldl_cons] at habs
    rw [habs] at h2
    simp only [List.length_nil] at h2
    omega

theorem fresh_recommendations_error_iff (eng : HybridEngine)
    (req : RecommendationRequest) :
    fresh_recommendations eng req = Except.error RecError.noCandidates ↔
      generate_candidates eng.sources = [] := by
  unfold fresh_recommendations
  by_cases h : generate_candidates eng.sources = []
  · simp [h]
  · simp [h]

theorem fresh_recommendations_ok (eng : HybridEngine) (req : RecommendationRequest)
    (h : generate_candidates eng.sources ≠ []) :
    ∃ l, fresh_recommendations eng req = Except.ok l := by
  unfold fresh_recommendations
  rw [if_neg h]
  exact ⟨_, rfl⟩

theorem compute_and_store_result (eng : HybridEngine) (req : RecommendationRequest)
    (cache : RedisClient) (key : String) :
    (compute_and_store eng req cache key).result = fresh_recommendations eng req := by
  unfold compute_and_store
  cases h : fresh_recommendations eng req with
  | error e => simp [h]
  | ok recs => simp [h]

/-- C2: `get_recommendations` raises the no-candidates error exactly when the
deduplicated fan-out is empty (stated on the fresh-compute path, i.e. a cache
miss); a source that raised is interchangeable with a source that returned an
empty list; and whenever at least one source returned a non-empty list the
call returns a ranked list with no caller-visible error. -/
theorem C2_no_candidates_error :
    (∀ (eng : HybridEngine) (req : RecommendationRequest) (cache : RedisClient),
      RedisClient.get_json cache (get_cache_key eng.filterHash req) = none →
      ((get_recommendations eng req cache).result = Except.error RecError.noCandidates ↔
        generate_candidates eng.sources = [])) ∧
    (∀ (pre post : List (Except Unit (List Candidate))) (e : Unit),
      generate_candidates (pre ++ Except.error e :: post) =
        generate_candidates (pre ++ Except.ok [] :: post)) ∧
    (∀ (eng : HybridEngine) (req : RecommendationRequest) (cache : RedisClient)
      (cs : List Candidate), Except.ok cs ∈ eng.sources → cs ≠ [] →
      ∃ l, (get_recommendations eng req cache).result = Except.ok l) := by
  refine ⟨?_, generate_candidates_error_as_empty, ?_⟩
  · intro eng req cache hmiss
    unfold get_recommendations
    rw [hmiss]
    rw [compute_and_store_result]
    constructor
    · intro h
      exact (fresh_recommendations_error_iff eng req).mp h
    · intro h
      exact (fresh_recommendations_error_iff eng req).mpr h
  · intro eng req cache cs hmem hne
    have hcand := generate_candidates_ne_nil eng.sources cs hmem hne
    unfold get_recommendations
    split
    · rename_i cached heq
      by_cases hc : cached = []
      · rw [if_pos hc, compute_and_store_result]
        exact fresh_recommendations_ok eng req hcand
      · rw [if_neg hc]
        exact ⟨cached, rfl⟩
    · rw [compute_and_store_result]
      exact fresh_recommendations_ok eng req hcand

/-- C7: when every cache `get` and `set` raises, `get_recommendations` returns
exactly the freshly computed recommendation list, leaves the cache untouched,
and (whenever the fan-out produced any candidate) surfaces no error. -/
theorem C7_cache_bypass (eng : HybridEngine) (req : RecommendationRequest)
    (cache : RedisClient) (hg : cache.get_fails = true) (hs : cache.set_fails = true) :
    (get_recommendations eng req cache).result = fresh_recommendations eng req ∧
    (get_recommendations eng req cache).cache = cache ∧
    (generate_candidates eng.sources ≠ [] →
      ∃ l, (get_recommendations eng req cache).result = Except.ok l) := by
  have hmiss : RedisClient.get_json cache (get_cache_key eng.filterHash req) = none := by
    unfold RedisClient.get_json
    rw [hg]
    simp
  have hres : get_recommendations eng req cache =
      compute_and_store eng req cache (get_cache_key eng.filterHash req) := by
    unfold get_recommendations
    rw [hmiss]
  refine ⟨?_, ?_, ?_⟩
  · rw [hres, compute_and_store_result]
  · rw [hres]
    unfold compute_and_store
    cases h : fresh_recommendations eng req with
    | error e => simp
    | ok recs =>
      simp only
      unfold RedisClient.set_json
      rw [hs]
      simp
  · intro hcand
    rw [hres, compute_and_store_result]
    exact fresh_recommendations_ok eng req hcand

/-- Descending order by aggregate score, as produced by `_rank_candidates`. -/
def SortedDesc (cands : List Scored) : Prop :=
  List.Pairwise (fun a b => b.score ≤ a.score) cands

/-- An all-zero component map for concrete scenarios. -/
def compZero : CompScores := ⟨0, 0, 0, 0, 0, 0⟩

/-- Scenario candidate A: aggregate score 0.90. -/
def candA : Scored := ⟨1, 9/10, compZero, []⟩

/-- Scenario candidate B: aggregate score 0.85. -/
def candB : Scored := ⟨2, 17/20, compZero, []⟩

/-- Scenario candidate C: aggregate score 0.50. -/
def candC : Scored := ⟨3, 1/2, compZero, []⟩

/-- Scenario candidate with aggregate score 0.10. -/
def candD : Scored := ⟨4, 1/10, compZero, []⟩

/-- Scenario candidate with aggregate score 0.90 (listed after a lower-scored
one in the unsorted-input scenario). -/
def candE : Scored := ⟨5, 9/10, compZero, []⟩

/-- Similarity oracle for the spec's concrete MMR scenario:
`similarity(A,B) = 0.8`, `similarity(A,C) = 0.1` (positions 0,1,2). -/
def simC1 : Nat → Nat → ℚ := fun i j =>
  if (i = 0 ∧ j = 1) ∨ (i = 1 ∧ j = 0) then 4/5
  else if (i = 0 ∧ j = 2) ∨ (i = 2 ∧ j = 0) then 1/10
  else 3/10

/-- Similarity oracle for the λ-scenarios: positions 0 and 1 highly similar
(0.9), everything else dissimilar (0). -/
def simC5 : Nat → Nat → ℚ := fun i j =>
  if (i = 0 ∧ j = 1) ∨ (i = 1 ∧ j = 0) then 9/10 else 0

/-- C1: on a candidate list sorted by aggregate score descending with more
candidates than `top_k`, `apply_mmr` outputs the maximal-score head first;
every scan over the remaining candidates returns an MMR-maximizing one
(`mmr = λ·relevance − (1−λ)·max-similarity-to-selected`), and the loop extends
the selection with exactly that pick; and the spec's concrete scenario
(A 0.90, B 0.85, C 0.50, top_k 2, λ 0.5, sim(A,B) 0.8, sim(A,C) 0.1) yields
[A, C]. -/
theorem C1_mmr_selection :
    (∀ (sim : Nat → Nat → ℚ) (cands : List Scored) (lam : ℚ) (top_k : Nat),
      SortedDesc cands → top_k < cands.length →
      ∃ h0, cands.head? = some h0 ∧ (apply_mmr sim cands lam top_k).head? = some h0 ∧
        ∀ c ∈ cands, c.score ≤ h0.score) ∧
    (∀ (sim : Nat → Nat → ℚ) (cands : List Scored) (lam : ℚ)
      (selected remaining : List Nat) (b : Nat),
      pick_best sim cands lam selected remaining = some b →
      b ∈ remaining ∧ ∀ i ∈ remaining,
        compute_mmr sim cands lam selected i ≤ compute_mmr sim cands lam selected b) ∧
    (∀ (sim : Nat → Nat → ℚ) (cands : List Scored) (lam : ℚ) (fuel : Nat)
      (selected remaining : List Nat) (b : Nat), remaining ≠ [] →
      pick_best sim cands lam selected remaining = some b →
      mmr_loop sim cands lam (fuel + 1) selected remaining =
        mmr_loop sim cands lam fuel (selected ++ [b]) (remaining.erase b)) ∧
    apply_mmr simC1 [candA, candB, candC] (1/2) 2 = [candA, candC] := by
  refine ⟨?_, pick_best_spec, ?_, ?_⟩
  · intro sim cands lam top_k hsort hlen
    cases cands with
    | nil => simp at hlen
    | cons h0 t =>
      have hhead : (h0 :: t).head? = some h0 := rfl
      refine ⟨h0, hhead, ?_, ?_⟩
      · rw [apply_mmr_head sim (h0 :: t) lam top_k hlen]
        exact hhead
      · intro c hc
        rcases List.mem_cons.mp hc with hc | hc
        · cases hc
          exact le_refl _
        · exact (List.pairwise_cons.mp hsort).1 c hc
  · intro sim cands lam fuel selected remaining b hrem hp
    simp only [mmr_loop, if_neg hrem, hp]
  · have h1 : pick_best simC1 [candA, candB, candC] (1/2) [0] [1, 2] = some 2 := by
      norm_num [pick_best, pick_step, compute_mmr, scoreAt, simC1, candA, candB, candC]
    have h2 : mmr_loop simC1 [candA, candB, candC] (1/2) 1 [0] [1, 2] = [0, 2] := by
      rw [show (1 : Nat) = 0 + 1 from rfl]
      rw [mmr_loop, if_neg (by simp), h1]
      rfl
    unfold apply_mmr
    rw [if_neg (by simp [candA, candB, candC]), if_neg (by simp)]
    show (mmr_loop simC1 [candA, candB, candC] (1/2) 1 [0] [1, 2]).filterMap
      (fun i => ([candA, candB, candC] : List Scored)[i]?) = [candA, candC]
    rw [h2]
    rfl

/-- C1 witness: the generic sorted-input clause of `C1_mmr_selection`
instantiated at the concrete sorted scenario list with `top_k = 1`. -/
theorem C1_mmr_selection_witness :
    ∃ h0, ([candA, candB, candC] : List Scored).head? = some h0 ∧
      (apply_mmr simC1 [candA, candB, candC] (1/2) 1).head? = some h0 ∧
      ∀ c ∈ ([candA, candB, candC] : List Scored), c.score ≤ h0.score :=
  C1_mmr_selection.1 simC1 [candA, candB, candC] (1/2) 1
    (by norm_num [SortedDesc, List.pairwise_cons, candA, candB, candC]) (by simp)

/-- C10: `apply_mmr` always emits the element at input position 0 first
whenever the candidate count exceeds `top_k`, regardless of scores — so on the
concrete unsorted pair (0.1 before 0.9, top_k 1) the single pick is the
lower-scored first element, confirming that "highest score first" needs the
sorted-input precondition. -/
theorem C10_first_pick_is_position_zero :
    (∀ (sim : Nat → Nat → ℚ) (cands : List Scored) (lam : ℚ) (top_k : Nat),
      top_k < cands.length →
      (apply_mmr sim cands lam top_k).head? = cands.head?) ∧
    (apply_mmr simC5 [candD, candE] (1/2) 1 = [candD] ∧ candD.score < candE.score) := by
  refine ⟨apply_mmr_head, ?_, by norm_num [candD, candE]⟩
  unfold apply_mmr
  rw [if_neg (by simp [candD, candE]), if_neg (by simp)]
  show (mmr_loop simC5 [candD, candE] (1/2) 0 [0] [1]).filterMap
    (fun i => ([candD, candE] : List Scored)[i]?) = [candD]
  rw [mmr_loop]
  rfl

/-- C10 witness: the universal clause of `C10_first_pick_is_position_zero`
applied to the concrete unsorted pair. -/
theorem C10_first_pick_witness :
    (apply_mmr simC5 [candD, candE] (1/2) 1).head? =
      ([candD, candE] : List Scored).head? :=
  C10_first_pick_is_position_zero.1 simC5 [candD, candE] (1/2) 1 (by simp)

/-- Empty request context for concrete scenarios. -/
def ctxNone : Context := ⟨none, false, none, none⟩

/-- C5 (code bug): a request constructed with `diversity_lambda = 0.0` gets the
configured default 0.7 instead (`diversity_lambda or settings.REC_DIVERSITY_LAMBDA`
treats the falsy float 0.0 as absent), so on candidates (0.9, 0.85, 0.1) with
sim(0,1) = 0.9 and all other similarities 0 the pipeline's MMR keeps the
similar high-scorer B, whereas genuine λ = 0 — documented by `apply_mmr` as
"pure diversity" — picks the least-similar candidate D. -/
theorem C5_lambda_zero_unreachable :
    (mkRequest "u" 2 ctxNone [] (some 0)).diversity_lambda = 7/10 ∧
    apply_mmr simC5 [candA, candB, candD] ((mkRequest "u" 2 ctxNone [] (some 0)).diversity_lambda) 2 =
      [candA, candB] ∧
    apply_mmr simC5 [candA, candB, candD] 0 2 = [candA, candD] ∧
    candB ≠ candD := by
  have hlam : (mkRequest "u" 2 ctxNone [] (some 0)).diversity_lambda = 7/10 := by
    norm_num [mkRequest, REC_DIVERSITY_LAMBDA]
  refine ⟨hlam, ?_, ?_, by simp [candB, candD]⟩
  · rw [hlam]
    have h1 : pick_best simC5 [candA, candB, candD] (7/10) [0] [1, 2] = some 1 := by
      norm_num [pick_best, pick_step, compute_mmr, scoreAt, simC5, candA, candB, candD]
    have h2 : mmr_loop simC5 [candA, candB, candD] (7/10) 1 [0] [1, 2] = [0, 1] := by
      rw [show (1 : Nat) = 0 + 1 from rfl]
      rw [mmr_loop, if_neg (by simp), h1]
      rfl
    unfold apply_mmr
    rw [if_neg (by simp [candA, candB, candD]), if_neg (by simp)]
    show (mmr_loop simC5 [candA, candB, candD] (7/10) 1 [0] [1, 2]).filterMap
      (fun i => ([candA, candB, candD] : List Scored)[i]?) = [candA, candB]
    rw [h2]
    rfl
  · have h1 : pick_best simC5 [candA, candB, candD] 0 [0] [1, 2] = some 2 := by
      norm_num [pick_best, pick_step, compute_mmr, scoreAt, simC5, candA, candB, candD]
    have h2 : mmr_loop simC5 [candA, candB, candD] 0 1 [0] [1, 2] = [0, 2] := by
      rw [show (1 : Nat) = 0 + 1 from rfl]
      rw [mmr_loop, if_neg (by simp), h1]
      rfl
    unfold apply_mmr
    rw [if_neg (by simp [candA, candB, candD]), if_neg (by simp)]
    show (mmr_loop simC5 [candA, candB, candD] 0 1 [0] [1, 2]).filterMap
      (fun i => ([candA, candB, candD] : List Scored)[i]?) = [candA, candD]
    rw [h2]
    rfl

/-- The untrained collaborative engine (`is_trained = False`). -/
def collabUntrained : CollabModel := ⟨false, fun _ _ => Except.ok 0⟩

/-- A minimal candidate carrying no optional raw values. -/
def candSimple : Candidate := ⟨7, none, none, none, [], none, [], []⟩

/-- C4 (code bug): with an untrained collaborative model, `predict_rating`
returns the raw neutral rating 3.0, so the collaborative component score is 3
(outside [0,1]) and the aggregate under the configured weights is 1.2 > 1;
moreover a raw `sentiment_score` carried by the candidate is passed through
unclamped (2 stays 2). -/
theorem C4_scores_not_bounded :
    (calculate_component_scores collabUntrained get_user_profile_genres none "u"
      candSimple ctxNone).collaborative = 3 ∧
    (1 : ℚ) < (calculate_component_scores collabUntrained get_user_profile_genres none "u"
      candSimple ctxNone).collaborative ∧
    (1 : ℚ) < finalScore defaultWeights (calculate_component_scores collabUntrained
      get_user_profile_genres none "u" candSimple ctxNone) ∧
    (calculate_component_scores collabUntrained get_user_profile_genres none "u"
      { candSimple with sentiment_score := some 2 } ctxNone).sentiment = 2 := by
  norm_num [calculate_component_scores, predict_rating, collabUntrained,
    calculate_similarity, get_user_profile_genres, candSimple, ctxNone,
    calculate_context_score, finalScore, defaultWeights]

/-- C3: every candidate emitted by the ranking stage carries an aggregate score
equal (exactly, hence within tolerance 1e-6) to the weighted sum of its six
component scores; and a component whose source reported nothing contributes 0:
a missing `sentiment_score` key, a disabled GNN engine, and a missing
`popularity` key each yield component 0. -/
theorem C3_weighted_sum :
    (∀ (scoreFn : Candidate → CompScores) (w : Weights) (cands : List Candidate)
      (s : Scored), s ∈ rank_candidates scoreFn w cands →
      |s.score - (w.collaborative * s.components.collaborative +
        w.content * s.components.content + w.gnn * s.components.gnn +
        w.sentiment * s.components.sentiment +
        w.popularity * s.components.popularity +
        w.context * s.components.context)| ≤ 1/1000000) ∧
    (∀ collab pg g uid cand ctx, cand.sentiment_score = none →
      (calculate_component_scores collab pg g uid cand ctx).sentiment = 0) ∧
    (∀ collab pg uid cand ctx,
      (calculate_component_scores collab pg none uid cand ctx).gnn = 0) ∧
    (∀ collab pg g uid cand ctx, cand.popularity = none →
      (calculate_component_scores collab pg g uid cand ctx).popularity = 0) := by
  refine ⟨?_, ?_, ?_, ?_⟩
  · intro scoreFn w cands s hs
    obtain ⟨c, hc, rfl⟩ := rank_candidates_mem scoreFn w cands s hs
    simp only [scoreCandidate, finalScore]
    norm_num
  · intro collab pg g uid cand ctx h
    simp [calculate_component_scores, h]
  · intro collab pg uid cand ctx
    simp [calculate_component_scores]
  · intro collab pg g uid cand ctx h
    simp [calculate_component_scores, h]

/-- C3 witness: the weighted-sum clause applied to the one-candidate concrete
run, and the missing-sentiment clause applied to the minimal candidate. -/
theorem C3_weighted_sum_witness :
    |(scoreCandidate (fun _ => compZero) defaultWeights candSimple).score -
      (defaultWeights.collaborative *
        (scoreCandidate (fun _ => compZero) defaultWeights candSimple).components.collaborative +
       defaultWeights.content *
        (scoreCandidate (fun _ => compZero) defaultWeights candSimple).components.content +
       defaultWeights.gnn *
        (scoreCandidate (fun _ => compZero) defaultWeights candSimple).components.gnn +
       defaultWeights.sentiment *
        (scoreCandidate (fun _ => compZero) defaultWeights candSimple).components.sentiment +
       defaultWeights.popularity *
        (scoreCandidate (fun _ => compZero) defaultWeights candSimple).components.popularity +
       defaultWeights.context *
        (scoreCandidate (fun _ => compZero) defaultWeights candSimple).components.context)| ≤
      1/1000000 ∧
    (calculate_component_scores collabUntrained get_user_profile_genres none "u"
      candSimple ctxNone).sentiment = 0 := by
  have hmem : scoreCandidate (fun _ => compZero) defaultWeights candSimple ∈
      rank_candidates (fun _ => compZero) defaultWeights [candSimple] := by
    unfold rank_candidates
    rw [List.mem_insertionSort]
    simp
  exact ⟨C3_weighted_sum.1 (fun _ => compZero) defaultWeights [candSimple] _ hmem,
    C3_weighted_sum.2.1 collabUntrained get_user_profile_genres none "u" candSimple
      ctxNone rfl⟩

/-- A cold, healthy cache. -/
def cacheEmpty : RedisClient := ⟨fun _ => none, false, false⟩

/-- A cache whose underlying client raises on every `get` and every `set`. -/
def cacheDead : RedisClient := ⟨fun _ => none, true, true⟩

/-- A plain request built with defaults. -/
def reqPlain : RecommendationRequest := mkRequest "u1" 5 ctxNone [] none

/-- An engine whose fan-out produced no candidates at all. -/
def engNoSources : HybridEngine :=
  ⟨[], collabUntrained, none, defaultWeights, fun _ _ => 0, fun _ _ => "", fun _ => 1/2,
    fun _ => 0⟩

/-- An engine with one healthy source returning one candidate. -/
def engOneSource : HybridEngine :=
  ⟨[Except.ok [candSimple]], collabUntrained, none, defaultWeights, fun _ _ => 0,
    fun _ _ => "", fun _ => 1/2, fun _ => 0⟩

/-- C2 witness: the error-iff-no-candidates clause applied to a concrete
engine whose fan-out is empty, and the non-empty-source clause applied to a
concrete engine with one healthy source. -/
theorem C2_no_candidates_error_witness :
    (get_recommendations engNoSources reqPlain cacheEmpty).result =
      Except.error RecError.noCandidates ∧
    ∃ l, (get_recommendations engOneSource reqPlain cacheEmpty).result = Except.ok l := by
  constructor
  · exact (C2_no_candidates_error.1 engNoSources reqPlain cacheEmpty rfl).mpr rfl
  · exact C2_no_candidates_error.2.2 engOneSource reqPlain cacheEmpty [candSimple]
      (by simp [engOneSource]) (by simp)

/-- C7 witness: `C7_cache_bypass` applied to a concrete engine and an
always-failing cache. -/
theorem C7_cache_bypass_witness :
    (get_recommendations engOneSource reqPlain cacheDead).result =
      fresh_recommendations engOneSource reqPlain ∧
    (get_recommendations engOneSource reqPlain cacheDead).cache = cacheDead ∧
    ∃ l, (get_recommendations engOneSource reqPlain cacheDead).result = Except.ok l := by
  have h := C7_cache_bypass engOneSource reqPlain cacheDead rfl rfl
  refine ⟨h.1, h.2.1, h.2.2 ?_⟩
  show generate_candidates [Except.ok [candSimple]] ≠ []
  simp [generate_candidates, source_step, merge_candidate]

/-- The builtin string hash fixed to a constant (legitimate: any single
process's `hash` is one fixed function, and the requests compared share one
filter map). -/
def fhZero : List (String × String) → Int := fun _ => 0

/-- A request with explicit λ = 0.3. -/
def reqL1 : RecommendationRequest := mkRequest "u" 10 ctxNone [] (some (3/10))

/-- A request identical to `reqL1` except λ = 0.7. -/
def reqL2 : RecommendationRequest := mkRequest "u" 10 ctxNone [] (some (7/10))

/-- C6 counterexample: two requests that differ only in the diversity
coefficient λ map to the same cache key, because `_get_cache_key` interpolates
only the user id, `top_k` and the filter hash — λ is not part of the key. -/
theorem C6_counterexample_lambda_collision :
    get_cache_key fhZero reqL1 = get_cache_key fhZero reqL2 ∧
    reqL1.diversity_lambda ≠ reqL2.diversity_lambda := by
  constructor
  · rfl
  · norm_num [reqL1, reqL2, mkRequest, REC_DIVERSITY_LAMBDA]

/-- C6 (amended): the cache key is a deterministic function of the user id,
`top_k` and the filter hash alone; any two requests agreeing on those three
fields — whatever their λ or context — share one key (identical requests in
particular). -/
theorem C6_cache_key_ignores_lambda (fh : List (String × String) → Int)
    (r1 r2 : RecommendationRequest) (hu : r1.user_id = r2.user_id)
    (hk : r1.top_k = r2.top_k) (hf : r1.filters = r2.filters) :
    get_cache_key fh r1 = get_cache_key fh r2 := by
  unfold get_cache_key
  rw [hu, hk, hf]

/-- C6 witness: the amended key lemma applied to the two concrete requests
differing only in λ. -/
theorem C6_cache_key_witness : get_cache_key fhZero reqL1 = get_cache_key fhZero reqL2 :=
  C6_cache_key_ignores_lambda fhZero reqL1 reqL2 rfl rfl rfl

/-- The cache state after a successful `set` of `v` under `key`. -/
def cache_insert (c : RedisClient) (key : String) (v : List Recommendation) :
    RedisClient :=
  { c with store := fun k => if k = key then some v else c.store k }

theorem get_recommendations_hit (eng : HybridEngine) (req : RecommendationRequest)
    (cache : RedisClient) (cached : List Recommendation)
    (hprobe : RedisClient.get_json cache (get_cache_key eng.filterHash req) = some cached)
    (hc : cached ≠ []) :
    get_recommendations eng req cache = ⟨Except.ok cached, false, cache⟩ := by
  unfold get_recommendations
  split
  · rename_i c heq
    rw [hprobe] at heq
    injection heq with heq2
    subst heq2
    rw [if_neg hc]
  · rename_i heq
    rw [hprobe] at heq
    exact Option.noConfusion heq

theorem get_recommendations_second_call (eng : HybridEngine)
    (req : RecommendationRequest) (cache : RedisClient)
    (hmiss : RedisClient.get_json cache (get_cache_key eng.filterHash req) = none)
    (hg : cache.get_fails = false) (hs : cache.set_fails = false)
    (l : List Recommendation)
    (h1 : (get_recommendations eng req cache).result = Except.ok l) (hne : l ≠ []) :
    (get_recommendations eng req (get_recommendations eng req cache).cache).result =
      Except.ok (l.map Recommendation.to_dict) ∧
    (get_recommendations eng req (get_recommendations eng req cache).cache).explained = false ∧
    (get_recommendations eng req cache).explained = true := by
  have hcall1 : get_recommendations eng req cache =
      compute_and_store eng req cache (get_cache_key eng.filterHash req) := by
    unfold get_recommendations
    rw [hmiss]
  have hfresh : fresh_recommendations eng req = Except.ok l := by
    rw [hcall1, compute_and_store_result] at h1
    exact h1
  have hset : RedisClient.set_json cache (get_cache_key eng.filterHash req)
      (l.map Recommendation.to_dict) =
      (true, cache_insert cache (get_cache_key eng.filterHash req)
        (l.map Recommendation.to_dict)) := by
    unfold RedisClient.set_json cache_insert
    rw [hs]
    simp
  have hstore : compute_and_store eng req cache (get_cache_key eng.filterHash req) =
      ⟨Except.ok l, true, cache_insert cache (get_cache_key eng.filterHash req)
        (l.map Recommendation.to_dict)⟩ := by
    unfold compute_and_store
    rw [hfresh]
    simp only [hset]
  have hget2 : RedisClient.get_json
      (cache_insert cache (get_cache_key eng.filterHash req) (l.map Recommendation.to_dict))
      (get_cache_key eng.filterHash req) =
      some (l.map Recommendation.to_dict) := by
    unfold RedisClient.get_json cache_insert
    simp [hg]
  have hmapne : l.map Recommendation.to_dict ≠ [] := by
    simpa using hne
  have hhit := get_recommendations_hit eng req
    (cache_insert cache (get_cache_key eng.filterHash req) (l.map Recommendation.to_dict))
    (l.map Recommendation.to_dict) hget2 hmapne
  rw [hcall1, hstore]
  dsimp only
  rw [hhit]
  exact ⟨rfl, rfl, rfl⟩

/-- C8 (amended): starting from a cold healthy cache, a successful first call
computes fresh (the explanation stage runs), and an identical second call
returns the cached serialized payload without re-running the explanation
stage — that payload is the first call's list with `score`, every component
score, and `confidence` rounded to four decimal places (`to_dict`), so the two
calls agree exactly iff those roundings are identities. -/
theorem C8_second_call_rounded (eng : HybridEngine)
    (req : RecommendationRequest) (cache : RedisClient)
    (hmiss : RedisClient.get_json cache (get_cache_key eng.filterHash req) = none)
    (hg : cache.get_fails = false) (hs : cache.set_fails = false)
    (l : List Recommendation)
    (h1 : (get_recommendations eng req cache).result = Except.ok l) (hne : l ≠ []) :
    (get_recommendations eng req (get_recommendations eng req cache).cache).result =
      Except.ok (l.map Recommendation.to_dict) ∧
    (get_recommendations eng req (get_recommendations eng req cache).cache).explained = false ∧
    (get_recommendations eng req cache).explained = true :=
  get_recommendations_second_call eng req cache hmiss hg hs l h1 hne

/-- A candidate carrying a sentiment score with a non-terminating decimal
expansion (1/3), which the 4-decimal cache serialization cannot preserve. -/
def candThird : Candidate := ⟨7, some (1/3), none, none, [], none, [], []⟩

/-- Engine with one source returning `candThird`. -/
def engRound : HybridEngine :=
  ⟨[Except.ok [candThird]], collabUntrained, none, defaultWeights, fun _ _ => 0,
    fun _ _ => "", fun _ => 1/2, fun _ => 0⟩

/-- The recommendation the fresh pipeline produces for `candThird`:
score `0.35·3 + 0.25·0.5 + 0.1·(1/3) + 0.05·0.5 = 37/30`. -/
def recThird : Recommendation := ⟨7, 37/30, ⟨3, 1/2, 0, 1/3, 0, 1/2⟩, "", 1/2, []⟩

theorem fresh_engRound : fresh_recommendations engRound reqPlain = Except.ok [recThird] := by
  have hcands : generate_candidates engRound.sources = [candThird] := rfl
  have hcomps : calculate_component_scores collabUntrained get_user_profile_genres
      none reqPlain.user_id candThird reqPlain.context = ⟨3, 1/2, 0, 1/3, 0, 1/2⟩ := by
    norm_num [calculate_component_scores, predict_rating, collabUntrained,
      calculate_similarity, get_user_profile_genres, candThird, reqPlain, mkRequest,
      ctxNone, calculate_context_score]
  have hranked : rank_candidates
      (fun c => calculate_component_scores engRound.collab get_user_profile_genres
        engRound.gnn reqPlain.user_id c reqPlain.context) engRound.weights [candThird] =
      [⟨7, 37/30, ⟨3, 1/2, 0, 1/3, 0, 1/2⟩, []⟩] := by
    unfold rank_candidates
    simp only [List.map, List.insertionSort, List.orderedInsert, scoreCandidate]
    rw [show engRound.collab = collabUntrained from rfl,
      show engRound.gnn = (none : Option (String → Nat → ℚ)) from rfl,
      show engRound.weights = defaultWeights from rfl]
    rw [hcomps]
    norm_num [finalScore, defaultWeights, candThird]
  unfold fresh_recommendations
  rw [hcands, if_neg (by simp)]
  rw [hranked]
  dsimp only
  have happly : apply_mmr engRound.sim [(⟨7, 37/30, ⟨3, 1/2, 0, 1/3, 0, 1/2⟩, []⟩ : Scored)]
      reqPlain.diversity_lambda reqPlain.top_k =
      [⟨7, 37/30, ⟨3, 1/2, 0, 1/3, 0, 1/2⟩, []⟩] := by
    unfold apply_mmr
    rw [if_neg (by simp), if_pos (by simp [reqPlain, mkRequest])]
  rw [happly]
  simp [engRound, recThird]

/-- C8 counterexample: with the concrete engine whose pipeline produces a
score of 37/30, the second (cache-hit) call returns a different list than the
first call — 37/30 is rounded to 1.2333 by the cache serialization — so
consecutive identical calls are not byte-identical. -/
theorem C8_counterexample_not_byte_identical :
    (get_recommendations engRound reqPlain
        (get_recommendations engRound reqPlain cacheEmpty).cache).result ≠
      (get_recommendations engRound reqPlain cacheEmpty).result := by
  have hmiss : RedisClient.get_json cacheEmpty (get_cache_key engRound.filterHash reqPlain) =
      none := rfl
  have h1 : (get_recommendations engRound reqPlain cacheEmpty).result =
      Except.ok [recThird] := by
    unfold get_recommendations
    rw [hmiss, compute_and_store_result]
    exact fresh_engRound
  have h2 := get_recommendations_second_call engRound reqPlain cacheEmpty hmiss rfl rfl
    [recThird] h1 (by simp)
  rw [h2.1, h1]
  intro habs
  simp only [Except.ok.injEq, List.map, List.cons.injEq, and_true] at habs
  have h5 := congrArg Recommendation.score habs
  have hfloor : (⌊(37/30 : ℚ) * 10000⌋ : ℤ) = 12333 := by
    rw [Int.floor_eq_iff]
    norm_num
  simp only [Recommendation.to_dict, recThird, pyRound4] at h5
  rw [hfloor] at h5
  norm_num at h5

/-- C8 witness: `C8_second_call_rounded` applied to the concrete one-candidate
engine, cold cache, and its freshly computed list. -/
theorem C8_second_call_rounded_witness :
    (get_recommendations engOneSource reqPlain
        (get_recommendations engOneSource reqPlain cacheEmpty).cache).result =
      Except.ok ([⟨7, 6/5, ⟨3, 1/2, 0, 0, 0, 1/2⟩, "", 1/2, []⟩].map Recommendation.to_dict) ∧
    (get_recommendations engOneSource reqPlain
        (get_recommendations engOneSource reqPlain cacheEmpty).cache).explained = false ∧
    (get_recommendations engOneSource reqPlain cacheEmpty).explained = true := by
  have hmiss : RedisClient.get_json cacheEmpty
      (get_cache_key engOneSource.filterHash reqPlain) = none := rfl
  have hcomps : calculate_component_scores collabUntrained get_user_profile_genres
      none reqPlain.user_id candSimple reqPlain.context =
      ⟨3, 1/2, 0, 0, 0, 1/2⟩ := by
    norm_num [calculate_component_scores, predict_rating, collabUntrained,
      calculate_similarity, get_user_profile_genres, candSimple, reqPlain, mkRequest,
      ctxNone, calculate_context_score]
  have hranked : rank_candidates
      (fun c => calculate_component_scores engOneSource.collab get_user_profile_genres
        engOneSource.gnn reqPlain.user_id c reqPlain.context) engOneSource.weights
      [candSimple] = [⟨7, 6/5, ⟨3, 1/2, 0, 0, 0, 1/2⟩, []⟩] := by
    unfold rank_candidates
    simp only [List.map, List.insertionSort, List.orderedInsert, scoreCandidate]
    rw [show engOneSource.collab = collabUntrained from rfl,
      show engOneSource.gnn = (none : Option (String → Nat → ℚ)) from rfl,
      show engOneSource.weights = defaultWeights from rfl]
    rw [hcomps]
    norm_num [finalScore, defaultWeights, candSimple]
  have h1 : (get_recommendations engOneSource reqPlain cacheEmpty).result =
      Except.ok [⟨7, 6/5, ⟨3, 1/2, 0, 0, 0, 1/2⟩, "", 1/2, []⟩] := by
    unfold get_recommendations
    rw [hmiss, compute_and_store_result]
    unfold fresh_recommendations
    rw [show generate_candidates engOneSource.sources = [candSimple] from rfl,
      if_neg (by simp)]
    rw [hranked]
    dsimp only
    have happly : apply_mmr engOneSource.sim
        [(⟨7, 6/5, ⟨3, 1/2, 0, 0, 0, 1/2⟩, []⟩ : Scored)]
        reqPlain.diversity_lambda reqPlain.top_k =
        [⟨7, 6/5, ⟨3, 1/2, 0, 0, 0, 1/2⟩, []⟩] := by
      unfold apply_mmr
      rw [if_neg (by simp), if_pos (by simp [reqPlain, mkRequest])]
    rw [happly]
    simp [engOneSource]
  exact C8_second_call_rounded engOneSource reqPlain cacheEmpty hmiss rfl rfl
    [⟨7, 6/5, ⟨3, 1/2, 0, 0, 0, 1/2⟩, "", 1/2, []⟩] h1 (by simp)

theorem listVar_nonneg (l : List ℚ) : 0 ≤ listVar l := by
  unfold listVar
  apply div_nonneg
  · apply List.sum_nonneg
    intro x hx
    simp only [List.mem_map] at hx
    obtain ⟨y, -, rfl⟩ := hx
    positivity
  · positivity

theorem conf_lt_conf (a1 a2 m1 m2 : ℝ) (ha1 : 0 ≤ a1) (ha2 : 0 ≤ a2)
    (hm1 : 0 < m1) (hm2 : 0 < m2) (h : a1 * m2 ^ 2 < a2 * m1 ^ 2) :
    1 / (1 + Real.sqrt a2 / m2) < 1 / (1 + Real.sqrt a1 / m1) := by
  have hsq : (Real.sqrt a1 * m2) ^ 2 < (Real.sqrt a2 * m1) ^ 2 := by
    rw [mul_pow, mul_pow, Real.sq_sqrt ha1, Real.sq_sqrt ha2]
    exact h
  have hlt : Real.sqrt a1 * m2 < Real.sqrt a2 * m1 :=
    lt_of_pow_lt_pow_left₀ 2 (by positivity) hsq
  have hdiv : Real.sqrt a1 / m1 < Real.sqrt a2 / m2 := by
    rw [div_lt_div_iff₀ hm1 hm2]
    exact hlt
  have h1pos : 0 < 1 + Real.sqrt a1 / m1 := by positivity
  exact one_div_lt_one_div_of_lt h1pos (by linarith)

theorem calculate_confidence_eq (s : CompScores)
    (hm : listMean (componentValues s) ≠ 0) :
    calculate_confidence s =
      1 / (1 + Real.sqrt ((listVar (componentValues s) : ℚ) : ℝ) /
        ((listMean (componentValues s) : ℚ) : ℝ)) := by
  unfold calculate_confidence
  rw [if_neg (by simp [componentValues]), if_neg hm]

theorem confidence_lt_of_cvSq_lt (s1 s2 : CompScores)
    (hm1 : 0 < listMean (componentValues s1)) (hm2 : 0 < listMean (componentValues s2))
    (h : cvSq (componentValues s1) < cvSq (componentValues s2)) :
    calculate_confidence s2 < calculate_confidence s1 := by
  rw [calculate_confidence_eq s1 (ne_of_gt hm1), calculate_confidence_eq s2 (ne_of_gt hm2)]
  have h2 : listVar (componentValues s1) * (listMean (componentValues s2)) ^ 2 <
      listVar (componentValues s2) * (listMean (componentValues s1)) ^ 2 := by
    have := (div_lt_div_iff₀ (by positivity) (by positivity)).mp h
    exact this
  apply conf_lt_conf
  · exact_mod_cast listVar_nonneg (componentValues s1)
  · exact_mod_cast listVar_nonneg (componentValues s2)
  · exact_mod_cast hm1
  · exact_mod_cast hm2
  · exact_mod_cast h2

/-- The spec scenario's low-spread component map
{collaborative 0.9, content 0.88, graph 0.91}, all else 0. -/
def compsAgree : CompScores := ⟨9/10, 22/25, 91/100, 0, 0, 0⟩

/-- The spec scenario's high-spread component map
{collaborative 0.9, content 0.1, graph 0.5}, all else 0. -/
def compsDisagree : CompScores := ⟨9/10, 1/10, 1/2, 0, 0, 0⟩

/-- A component map with a single non-zero entry: its non-zero components have
coefficient of variation 0. -/
def compsSingle : CompScores := ⟨9/10, 0, 0, 0, 0, 0⟩

/-- A component map of six nearly equal non-zero entries: its non-zero
components have a small positive coefficient of variation. -/
def compsFlat : CompScores := ⟨1/2, 1/2, 1/2, 1/2, 1/2, 9/20⟩

/-- C9 counterexample: `compsSingle` has strictly smaller coefficient of
variation across its NON-ZERO components than `compsFlat` (0 versus a positive
value), yet `_calculate_confidence` — which averages over all six components,
zeros included — gives it strictly LOWER confidence; so "lower CV across
non-zero components yields higher confidence" fails on the code. -/
theorem C9_counterexample_nonzero_cv :
    cvSq (nonzeroComponents compsSingle) < cvSq (nonzeroComponents compsFlat) ∧
    calculate_confidence compsSingle < calculate_confidence compsFlat := by
  constructor
  · norm_num [cvSq, nonzeroComponents, componentValues, compsSingle, compsFlat,
      listVar, listMean, List.filter, List.sum_cons, List.sum_nil, List.map_cons,
      List.map_nil]
  · apply confidence_lt_of_cvSq_lt compsFlat compsSingle
    · norm_num [listMean, componentValues, compsFlat, List.sum_cons, List.sum_nil]
    · norm_num [listMean, componentValues, compsSingle, List.sum_cons, List.sum_nil]
    · norm_num [cvSq, componentValues, compsFlat, compsSingle, listVar, listMean,
        List.sum_cons, List.sum_nil, List.map_cons, List.map_nil]

/-- C9 (amended): confidence is `1/(1 + cv)` with the coefficient of variation
taken over ALL six components (zeros included, per `list(components.values())`);
for positive means, a lower all-components CV yields strictly higher
confidence; the spec's concrete scenario follows (the low-spread map beats the
high-spread map, their zero components being equal); and for non-negative
components the value lies in [0, 1] (no clamping is performed or needed
there). -/
theorem C9_confidence_amended :
    (∀ s1 s2 : CompScores, 0 < listMean (componentValues s1) →
      0 < listMean (componentValues s2) →
      cvSq (componentValues s1) < cvSq (componentValues s2) →
      calculate_confidence s2 < calculate_confidence s1) ∧
    calculate_confidence compsDisagree < calculate_confidence compsAgree ∧
    (∀ s : CompScores, (∀ x ∈ componentValues s, 0 ≤ x) →
      0 ≤ calculate_confidence s ∧ calculate_confidence s ≤ 1) := by
  refine ⟨confidence_lt_of_cvSq_lt, ?_, ?_⟩
  · apply confidence_lt_of_cvSq_lt compsAgree compsDisagree
    · norm_num [listMean, componentValues, compsAgree, List.sum_cons, List.sum_nil]
    · norm_num [listMean, componentValues, compsDisagree, List.sum_cons, List.sum_nil]
    · norm_num [cvSq, componentValues, compsAgree, compsDisagree, listVar, listMean,
        List.sum_cons, List.sum_nil, List.map_cons, List.map_nil]
  · intro s hx
    by_cases hm : listMean (componentValues s) = 0
    · unfold calculate_confidence
      rw [if_neg (by simp [componentValues]), if_pos hm]
      norm_num
    · have hmean_nonneg : 0 ≤ listMean (componentValues s) := by
        unfold listMean
        exact div_nonneg (List.sum_nonneg hx) (by positivity)
      have hmpos : (0 : ℝ) < ((listMean (componentValues s) : ℚ) : ℝ) := by
        exact_mod_cast lt_of_le_of_ne hmean_nonneg (Ne.symm hm)
      rw [calculate_confidence_eq s hm]
      have hsq : (0 : ℝ) ≤ Real.sqrt ((listVar (componentValues s) : ℚ) : ℝ) /
          ((listMean (componentValues s) : ℚ) : ℝ) :=
        div_nonneg (Real.sqrt_nonneg _) (le_of_lt hmpos)
      constructor
      · positivity
      · rw [div_le_one (by positivity)]
        linarith

/-- C9 witness: the monotonicity clause of `C9_confidence_amended` applied to
the concrete scenario pair, and the range clause applied to the all-zero map. -/
theorem C9_confidence_witness :
    calculate_confidence compsDisagree < calculate_confidence compsAgree ∧
    (0 ≤ calculate_confidence compZero ∧ calculate_confidence compZero ≤ 1) := by
  constructor
  · apply C9_confidence_amended.1 compsAgree compsDisagree
    · norm_num [listMean, componentValues, compsAgree, List.sum_cons, List.sum_nil]
    · norm_num [listMean, componentValues, compsDisagree, List.sum_cons, List.sum_nil]
    · norm_num [cvSq, componentValues, compsAgree, compsDisagree, listVar, listMean,
        List.sum_cons, List.sum_nil, List.map_cons, List.map_nil]
  · apply C9_confidence_amended.2.2 compZero
    intro x hx
    simp only [componentValues, compZero, List.mem_cons, List.not_mem_nil, or_false] at hx
    rcases hx with h | h | h | h | h | h <;> rw [h]

end MovieRec
